import Mathlib

/-!
Verification of the 3D Swin Transformer in
`medical_seg/networks/nets/swin_transformer/model_2.py`.

Two layers of modelling are used:

* a *shape-level* model: every tensor operation of the forward passes is
  translated into a function from input shapes (lists of dimension sizes)
  to `Option` of the output shape, `none` meaning the operation raises.
  The translation follows the PyTorch semantics of each primitive
  (`nn.Linear`, `nn.LayerNorm`, `Tensor.unfold`, `einops.rearrange`,
  `Tensor.squeeze`, `Tensor.permute`, `Tensor.mean`, `torch.roll`).

* a *value-level* model: tensors are functions from `Fin`-indexed
  coordinates to `ℝ`, and `CyclicShift` / `WindowAttention.forward` are
  translated entry by entry (softmax via `Real.exp`).

Construction-time behaviour (`__init__` of `WindowAttention` and
`StageModule`) is modelled by `Option`-valued initialisers.
-/

namespace MedicalSeg

/-! ## Shape-level model -/

/-- A tensor shape: the list of dimension sizes, outermost first. -/
abbrev Shape := List ℕ

/-- Shape semantics of `nn.Linear(inF, outF)` applied to the last axis:
the last dimension must equal `inF` and becomes `outF`; any earlier
dimensions are kept.  A mismatching last dimension raises at call time. -/
def linearShape (inF outF : ℕ) (s : Shape) : Option Shape :=
  if s.getLast? = some inF then some (s.dropLast ++ [outF]) else none

/-- Shape semantics of `nn.LayerNorm(nf)`: the last dimension must equal
`nf`; the shape is unchanged. -/
def layerNormShape (nf : ℕ) (s : Shape) : Option Shape :=
  if s.getLast? = some nf then some s else none

/-- Shape semantics of `PatchMerging.forward` (model_2.py lines 170-182) for
a module built with `PatchMerging(in_channels, out_channels, downscaling_factor=f)`.

The code does `x.squeeze(0)`, then `Tensor.unfold` along each of the three
spatial axes with size = step = the per-axis factor, then
`permute(1,2,3,0,4,5,6)`, `view((new_h,new_w,new_d,-1))`, `unsqueeze(0)`
and a `Linear(in_channels·f₁·f₂·f₃, out_channels)`:

* `squeeze(0)` only removes the batch axis when it is 1; for any other
  batch size the later 7-index `permute` is applied to an 8-dimensional
  tensor and raises, so only `b = 1` succeeds;
* `Tensor.unfold(dim, size, step)` raises when `step = 0` or when
  `size` exceeds the axis length; otherwise it produces
  `(len − size)/step + 1 = len/size` slices, silently dropping any
  remainder (no divisibility check);
* the `view` target uses the same floor divisions, so it always matches;
* the linear layer needs the flattened last dimension `c·f₁·f₂·f₃` to be
  its `in_features = in_channels·f₁·f₂·f₃`. -/
def patchMergingShape (inC outC : ℕ) (f : ℕ × ℕ × ℕ) (s : Shape) : Option Shape :=
  match s with
  | [b, c, h, w, d] =>
      if b = 1 then
        if 0 < f.1 ∧ 0 < f.2.1 ∧ 0 < f.2.2 ∧ f.1 ≤ h ∧ f.2.1 ≤ w ∧ f.2.2 ≤ d then
          if c * (f.1 * f.2.1 * f.2.2) = inC * (f.1 * f.2.1 * f.2.2) then
            some [1, h / f.1, w / f.2.1, d / f.2.2, outC]
          else none
        else none
      else none
  | _ => none

/-- Shape semantics of `WindowAttention.forward` (lines 103-142) for a module
constructed with the given `dim`, `heads`, `head_dim` and 3-tuple
`window_size` in relative-position mode (the only constructible mode, see
`windowAttentionInit`):

* `to_qkv = nn.Linear(dim, 3·heads·head_dim)` needs the channel axis to
  equal `dim`;
* the `einops.rearrange` with pattern `(nw_h w_h) (nw_w w_w) (nw_d w_d)`
  needs a 5-dimensional input whose spatial axes are exactly divisible by
  the corresponding window sizes (einops raises otherwise, and a zero
  window size can never decompose a positive axis);
* the two `einsum`s, the bias add and the softmax keep those shapes, the
  inverse rearrange restores `(b, h, w, d, heads·head_dim)` and
  `to_out = nn.Linear(heads·head_dim, dim)` brings the channel axis back
  to `dim`; the optional cyclic shifts do not change shapes. -/
def windowAttentionShape (dim : ℕ) (ws : ℕ × ℕ × ℕ) (s : Shape) : Option Shape :=
  match s with
  | [b, h, w, d, c] =>
      if c = dim then
        if 0 < ws.1 ∧ 0 < ws.2.1 ∧ 0 < ws.2.2 ∧ ws.1 ∣ h ∧ ws.2.1 ∣ w ∧ ws.2.2 ∣ d then
          some [b, h, w, d, dim]
        else none
      else none
  | _ => none

/-- Shape semantics of `FeedForward` (lines 35-45):
`Linear(dim, hidden) → GELU → Linear(hidden, dim)`. -/
def feedForwardShape (dim hiddenDim : ℕ) (s : Shape) : Option Shape := do
  let s1 ← linearShape dim hiddenDim s
  linearShape hiddenDim dim s1

/-- Shape semantics of `SwinBlock.forward` (lines 156-159):
`Residual(PreNorm(dim, WindowAttention))` then
`Residual(PreNorm(dim, FeedForward(dim, mlp_dim = 4·dim)))`.
Each `Residual` adds the sublayer output to its input, which requires the
two shapes to agree. -/
def swinBlockShape (dim : ℕ) (ws : ℕ × ℕ × ℕ) (s : Shape) : Option Shape := do
  let sn ← layerNormShape dim s
  let sa ← windowAttentionShape dim ws sn
  if sa = s then
    let snn ← layerNormShape dim s
    let sf ← feedForwardShape dim (dim * 4) snn
    if sf = s then some s else none
  else none

/-- Shape semantics of the `for regular_block, shifted_block in self.layers`
loop of `StageModule.forward` (lines 243-245): `pairs` iterations, each
applying a non-shifted and then a shifted `SwinBlock` (shape semantics of
the two are identical). -/
def stagePairsShape (dim : ℕ) (ws : ℕ × ℕ × ℕ) : ℕ → Shape → Option Shape
  | 0, s => some s
  | n + 1, s => do
      let s1 ← swinBlockShape dim ws s
      let s2 ← swinBlockShape dim ws s1
      stagePairsShape dim ws n s2

/-- Shape semantics of `StageModule.forward` (lines 240-246):
`PatchMerging`, then `layers/2` pairs of blocks, then
`permute(0, 4, 1, 2, 3)` back to channel-first layout. -/
def stageModuleShape (inC hiddenDim layers : ℕ) (f : ℕ × ℕ × ℕ) (ws : ℕ × ℕ × ℕ)
    (s : Shape) : Option Shape := do
  let s1 ← patchMergingShape inC hiddenDim f s
  let s2 ← stagePairsShape hiddenDim ws (layers / 2) s1
  match s2 with
  | [b, h, w, d, c] => some [b, c, h, w, d]
  | _ => none

/-- Construction configuration of `SwinTransformer` (lines 250-270), with
per-stage 3-tuple downscaling factors (the only form `PatchMerging` can
consume, since it indexes `downscaling_factor[0..2]`). -/
structure SwinConfig where
  hiddenDim : ℕ
  layers : ℕ × ℕ × ℕ × ℕ
  channels : ℕ
  numClasses : ℕ
  windowSize : ℕ × ℕ × ℕ
  downscalingFactors : (ℕ × ℕ × ℕ) × (ℕ × ℕ × ℕ) × (ℕ × ℕ × ℕ) × (ℕ × ℕ × ℕ)

/-- Shape semantics of the four stages of `SwinTransformer.forward`
(lines 273-276), with the channel widths `hidden`, `2·hidden`, `4·hidden`,
`8·hidden` hard-wired in the constructor (lines 254-265). -/
def swinStagesShape (cfg : SwinConfig) (s : Shape) : Option Shape := do
  let s1 ← stageModuleShape cfg.channels cfg.hiddenDim cfg.layers.1
              cfg.downscalingFactors.1 cfg.windowSize s
  let s2 ← stageModuleShape cfg.hiddenDim (cfg.hiddenDim * 2) cfg.layers.2.1
              cfg.downscalingFactors.2.1 cfg.windowSize s1
  let s3 ← stageModuleShape (cfg.hiddenDim * 2) (cfg.hiddenDim * 4) cfg.layers.2.2.1
              cfg.downscalingFactors.2.2.1 cfg.windowSize s2
  stageModuleShape (cfg.hiddenDim * 4) (cfg.hiddenDim * 8) cfg.layers.2.2.2
              cfg.downscalingFactors.2.2.2 cfg.windowSize s3

/-- Shape semantics of `SwinTransformer.forward` (lines 272-278): the four
stages, then `x.mean(dim=[2, 3])` (which removes axes 2 and 3 of the
5-dimensional stage output and keeps axis 4, the depth axis), then the
head `nn.LayerNorm(hidden·8)` followed by `nn.Linear(hidden·8, num_classes)`,
both acting on the last remaining axis. -/
def swinTransformerShape (cfg : SwinConfig) (s : Shape) : Option Shape := do
  let s4 ← swinStagesShape cfg s
  let sm ← match s4 with
           | [b, c, _, _, d] => some [b, c, d]
           | _ => none
  let sn ← layerNormShape (cfg.hiddenDim * 8) sm
  linearShape (cfg.hiddenDim * 8) cfg.numClasses sn

/-! ## Relative position distances (lines 64-67, 92-97) -/

/-- A window-local voxel coordinate for a 3-tuple window size.  The rows and
columns of the `get_relative_distances` tensor enumerate exactly these
coordinates (in lexicographic order, via the triple list comprehension of
line 65); we index them by the coordinate itself. -/
abbrev Coord (ws : ℕ × ℕ × ℕ) := Fin ws.1 × Fin ws.2.1 × Fin ws.2.2

/-- `get_relative_distances(window_size)` (lines 64-67):
`distances[i, j, a] = indices[j][a] - indices[i][a]`, the signed per-axis
displacement between the window-local positions `j` and `i`. -/
def relDist (ws : ℕ × ℕ × ℕ) (i j : Coord ws) (a : Fin 3) : ℤ :=
  if a.val = 0 then (j.1 : ℤ) - (i.1 : ℤ)
  else if a.val = 1 then (j.2.1 : ℤ) - (i.2.1 : ℤ)
  else (j.2.2 : ℤ) - (i.2.2 : ℤ)

/-- The set of entries of the `get_relative_distances` tensor (all rows,
columns and axes). -/
def relEntries (ws : ℕ × ℕ × ℕ) : Finset ℤ :=
  Finset.image (fun p : Coord ws × Coord ws × Fin 3 => relDist ws p.1 p.2.1 p.2.2)
    Finset.univ

/-- For positive window sizes the distance tensor is non-empty. -/
def relEntriesNonempty (ws : ℕ × ℕ × ℕ)
    (h0 : 0 < ws.1) (h1 : 0 < ws.2.1) (h2 : 0 < ws.2.2) :
    (relEntries ws).Nonempty := by
  haveI : Nonempty (Coord ws × Coord ws × Fin 3) :=
    ⟨(⟨0, h0⟩, ⟨0, h1⟩, ⟨0, h2⟩), (⟨0, h0⟩, ⟨0, h1⟩, ⟨0, h2⟩), ⟨0, by omega⟩⟩
  exact Finset.univ_nonempty.image _

/-- `min_indice = self.relative_indices.min()` (line 94): the global minimum
entry of the distance tensor.  `torch.Tensor.min` on an empty tensor raises,
so the model carries the positivity of the window sizes. -/
def minIndice (ws : ℕ × ℕ × ℕ)
    (h0 : 0 < ws.1) (h1 : 0 < ws.2.1) (h2 : 0 < ws.2.2) : ℤ :=
  (relEntries ws).min' (relEntriesNonempty ws h0 h1 h2)

/-- `self.relative_indices += (-min_indice)` (line 95): the shifted relative
index tensor actually used to index the bias table in `forward` (line 124). -/
def shiftedRel (ws : ℕ × ℕ × ℕ)
    (h0 : 0 < ws.1) (h1 : 0 < ws.2.1) (h2 : 0 < ws.2.2)
    (i j : Coord ws) (a : Fin 3) : ℤ :=
  relDist ws i j a - minIndice ws h0 h1 h2

/-- The set of entries of the shifted relative index tensor. -/
def shiftedEntries (ws : ℕ × ℕ × ℕ)
    (h0 : 0 < ws.1) (h1 : 0 < ws.2.1) (h2 : 0 < ws.2.2) : Finset ℤ :=
  Finset.image
    (fun p : Coord ws × Coord ws × Fin 3 => shiftedRel ws h0 h1 h2 p.1 p.2.1 p.2.2)
    Finset.univ

/-- The shifted entries are non-empty for positive window sizes. -/
def shiftedEntriesNonempty (ws : ℕ × ℕ × ℕ)
    (h0 : 0 < ws.1) (h1 : 0 < ws.2.1) (h2 : 0 < ws.2.2) :
    (shiftedEntries ws h0 h1 h2).Nonempty := by
  haveI : Nonempty (Coord ws × Coord ws × Fin 3) :=
    ⟨(⟨0, h0⟩, ⟨0, h1⟩, ⟨0, h2⟩), (⟨0, h0⟩, ⟨0, h1⟩, ⟨0, h2⟩), ⟨0, by omega⟩⟩
  exact Finset.univ_nonempty.image _

/-- `max_indice = self.relative_indices.max().item()` (line 96), taken after
the shift of line 95. -/
def maxIndice (ws : ℕ × ℕ × ℕ)
    (h0 : 0 < ws.1) (h1 : 0 < ws.2.1) (h2 : 0 < ws.2.2) : ℤ :=
  (shiftedEntries ws h0 h1 h2).max' (shiftedEntriesNonempty ws h0 h1 h2)

/-! ## Construction-time model -/

/-- The configuration recorded on a successfully constructed
`WindowAttention` module (lines 71-101). `tableSide` is the side length of
the cubical `pos_embedding` parameter of line 97. -/
structure WAConfig where
  dim : ℕ
  heads : ℕ
  headDim : ℕ
  shifted : Bool
  windowSize : ℕ × ℕ × ℕ
  relativePosEmbedding : Bool
  tableSide : ℕ
  deriving DecidableEq, Repr

/-- `WindowAttention.__init__` (lines 71-101) for a 3-tuple `window_size`,
returning `none` when construction raises:

* in relative mode (lines 92-97) the module builds the shifted relative
  index tensor and a cubical bias table of side `max_indice + 1`;
  `Tensor.min` on the empty distance tensor (a zero window size) raises;
* in absolute mode (line 99) the table size is computed as
  `window_size ** 2`; with `window_size` a 3-tuple, `tuple ** int` raises
  `TypeError` in Python immediately, so construction always fails. -/
def windowAttentionInit (dim heads headDim : ℕ) (shifted : Bool)
    (ws : ℕ × ℕ × ℕ) (relativePosEmbedding : Bool) : Option WAConfig :=
  if relativePosEmbedding then
    if h : 0 < ws.1 ∧ 0 < ws.2.1 ∧ 0 < ws.2.2 then
      some { dim := dim, heads := heads, headDim := headDim, shifted := shifted,
             windowSize := ws, relativePosEmbedding := true,
             tableSide := (maxIndice ws h.1 h.2.1 h.2.2).toNat + 1 }
    else none
  else none

/-- `SwinBlock.__init__` (lines 146-154): builds a `WindowAttention` (which
may raise) and a `FeedForward` (which always constructs). -/
def swinBlockInit (dim heads headDim : ℕ) (shifted : Bool)
    (ws : ℕ × ℕ × ℕ) (relativePosEmbedding : Bool) : Option WAConfig :=
  windowAttentionInit dim heads headDim shifted ws relativePosEmbedding

/-- The configuration recorded on a successfully constructed `StageModule`:
the list of its `(regular, shifted)` `SwinBlock` pairs. -/
structure StageConfig where
  blocks : List (WAConfig × WAConfig)
  deriving DecidableEq, Repr

/-- The `for _ in range(layers // 2)` loop of `StageModule.__init__`
(lines 232-238): each iteration constructs one non-shifted and one shifted
`SwinBlock`. -/
def stageBlocks (hiddenDim heads headDim : ℕ) (ws : ℕ × ℕ × ℕ)
    (relativePosEmbedding : Bool) : ℕ → Option (List (WAConfig × WAConfig))
  | 0 => some []
  | n + 1 => do
      let r ← swinBlockInit hiddenDim heads headDim false ws relativePosEmbedding
      let sb ← swinBlockInit hiddenDim heads headDim true ws relativePosEmbedding
      let rest ← stageBlocks hiddenDim heads headDim ws relativePosEmbedding n
      pure ((r, sb) :: rest)

/-- `StageModule.__init__` (lines 222-238).  The statement
`assert layers % 2 == 0` is the first statement of the body, so an odd
`layers` raises before the `PatchMerging` or any `SwinBlock` (and hence any
parameter tensor) is created; for even `layers` the module builds a
`PatchMerging` (which always constructs) and `layers // 2` block pairs. -/
def stageModuleInit (inC hiddenDim layers : ℕ) (f : ℕ × ℕ × ℕ)
    (heads headDim : ℕ) (ws : ℕ × ℕ × ℕ) (relativePosEmbedding : Bool) :
    Option StageConfig :=
  if layers % 2 = 0 then
    (stageBlocks hiddenDim heads headDim ws relativePosEmbedding (layers / 2)).map
      (fun bs => { blocks := bs })
  else none

/-! ## Value-level model -/

/-- A 5-dimensional feature map (batch, height, width, depth, channel) with
real-valued entries. -/
def Tensor5 (b h w dp c : ℕ) : Type :=
  Fin b → Fin h → Fin w → Fin dp → Fin c → ℝ

/-- Index arithmetic of `torch.roll` on one axis of length `n`: the output
at position `i` reads the input at position `(i − s) mod n`. -/
def rollIdx {n : ℕ} (s : ℤ) (i : Fin n) : Fin n :=
  ⟨((((i : ℕ) : ℤ) - s) % (n : ℤ)).toNat, by
    have hn : 0 < (n : ℤ) := by exact_mod_cast i.pos
    have h1 : 0 ≤ (((i : ℕ) : ℤ) - s) % (n : ℤ) := Int.emod_nonneg _ (by omega)
    have h2 : (((i : ℕ) : ℤ) - s) % (n : ℤ) < (n : ℤ) := Int.emod_lt_of_pos _ hn
    omega⟩

/-- `CyclicShift.forward` (lines 7-13):
`torch.roll(x, shifts=(s₁, s₂, s₃), dims=(1, 2, 3))`, a circular shift of
the three spatial axes. -/
def cyclicShift {b h w dp c : ℕ} (s : ℤ × ℤ × ℤ) (x : Tensor5 b h w dp c) :
    Tensor5 b h w dp c :=
  fun i0 i1 i2 i3 i4 => x i0 (rollIdx s.1 i1) (rollIdx s.2.1 i2) (rollIdx s.2.2 i3) i4

/-- The multiset of all entries of a 5-dimensional tensor. -/
def entries {b h w dp c : ℕ} (x : Tensor5 b h w dp c) : Multiset ℝ :=
  (Finset.univ : Finset (Fin b × Fin h × Fin w × Fin dp × Fin c)).val.map
    (fun p => x p.1 p.2.1 p.2.2.1 p.2.2.2.1 p.2.2.2.2)

/-- Splitting an axis of length `n · w` into a window index and an
in-window offset, as the einops pattern `(nw w)` of lines 117-119 does
(window-major). -/
def splitIdx {n w : ℕ} (s : Fin (n * w)) : Fin n × Fin w :=
  have hw : 0 < w := by
    rcases Nat.eq_zero_or_pos w with h | h
    · exact absurd s.isLt (by simp [h])
    · exact h
  (⟨s.val / w, Nat.div_lt_of_lt_mul (Nat.mul_comm n w ▸ s.isLt)⟩,
   ⟨s.val % w, Nat.mod_lt _ hw⟩)

/-- Reassembling an axis index from a window index and an in-window offset
(the inverse einops pattern of lines 135-136). -/
def mergeIdx {n w : ℕ} (i : Fin n) (j : Fin w) : Fin (n * w) :=
  ⟨i.val * w + j.val, by
    have hi := i.isLt
    have hj := j.isLt
    calc i.val * w + j.val < i.val * w + w := by omega
    _ = (i.val + 1) * w := by ring
    _ ≤ n * w := Nat.mul_le_mul_right w hi⟩

noncomputable section

/-- Learned parameters of a `WindowAttention` module in relative-position
mode: the `to_qkv` weight (line 90), the `to_out` weight and bias
(line 101), and the cubical `pos_embedding` table of line 97, modelled as a
total function on ℤ³ (every lookup performed by `forward` stays inside the
table: see the index-bounds theorems below). -/
structure WAParams (dim heads headDim : ℕ) where
  wqkv : Fin (3 * (heads * headDim)) → Fin dim → ℝ
  wout : Fin dim → Fin (heads * headDim) → ℝ
  bout : Fin dim → ℝ
  posTable : ℤ → ℤ → ℤ → ℝ

/-- `self.scale = head_dim ** -0.5` (line 76). -/
def waScale (headDim : ℕ) : ℝ := (headDim : ℝ) ^ (-(1 / 2 : ℝ))

/-- Channel range of the query chunk of `self.to_qkv(x).chunk(3, dim=-1)`
(line 109): the first third of the `3 · inner` output channels. -/
def qIdx (heads headDim : ℕ) (o : Fin (heads * headDim)) :
    Fin (3 * (heads * headDim)) :=
  ⟨o.val, by have := o.isLt; omega⟩

/-- Channel range of the key chunk (second third). -/
def kIdx (heads headDim : ℕ) (o : Fin (heads * headDim)) :
    Fin (3 * (heads * headDim)) :=
  ⟨heads * headDim + o.val, by have := o.isLt; omega⟩

/-- Channel range of the value chunk (last third). -/
def vIdx (heads headDim : ℕ) (o : Fin (heads * headDim)) :
    Fin (3 * (heads * headDim)) :=
  ⟨2 * (heads * headDim) + o.val, by have := o.isLt; omega⟩

/-- `self.to_qkv(x)` (line 109): a bias-free linear map on the channel
axis. -/
def toQkv {dim heads headDim b h w dp : ℕ} (p : WAParams dim heads headDim)
    (x : Tensor5 b h w dp dim) (i0 : Fin b) (i1 : Fin h) (i2 : Fin w)
    (i3 : Fin dp) (o : Fin (3 * (heads * headDim))) : ℝ :=
  ∑ cc : Fin dim, p.wqkv o cc * x i0 i1 i2 i3 cc

/-- The windowed query tensor after the rearrange of lines 117-119: batch
`i0`, head `hh`, window `(wH, wW, wD)`, in-window position `pos`, per-head
channel `dd`. -/
def waQ {dim heads headDim b nh nw nd w0 w1 w2 : ℕ}
    (p : WAParams dim heads headDim)
    (x : Tensor5 b (nh * w0) (nw * w1) (nd * w2) dim)
    (i0 : Fin b) (hh : Fin heads) (wH : Fin nh) (wW : Fin nw) (wD : Fin nd)
    (pos : Coord (w0, w1, w2)) (dd : Fin headDim) : ℝ :=
  toQkv p x i0 (mergeIdx wH pos.1) (mergeIdx wW pos.2.1) (mergeIdx wD pos.2.2)
    (qIdx heads headDim (mergeIdx hh dd))

/-- The windowed key tensor (same rearrange, key chunk). -/
def waK {dim heads headDim b nh nw nd w0 w1 w2 : ℕ}
    (p : WAParams dim heads headDim)
    (x : Tensor5 b (nh * w0) (nw * w1) (nd * w2) dim)
    (i0 : Fin b) (hh : Fin heads) (wH : Fin nh) (wW : Fin nw) (wD : Fin nd)
    (pos : Coord (w0, w1, w2)) (dd : Fin headDim) : ℝ :=
  toQkv p x i0 (mergeIdx wH pos.1) (mergeIdx wW pos.2.1) (mergeIdx wD pos.2.2)
    (kIdx heads headDim (mergeIdx hh dd))

/-- The windowed value tensor (same rearrange, value chunk). -/
def waV {dim heads headDim b nh nw nd w0 w1 w2 : ℕ}
    (p : WAParams dim heads headDim)
    (x : Tensor5 b (nh * w0) (nw * w1) (nd * w2) dim)
    (i0 : Fin b) (hh : Fin heads) (wH : Fin nh) (wW : Fin nw) (wD : Fin nd)
    (pos : Coord (w0, w1, w2)) (dd : Fin headDim) : ℝ :=
  toQkv p x i0 (mergeIdx wH pos.1) (mergeIdx wW pos.2.1) (mergeIdx wD pos.2.2)
    (vIdx heads headDim (mergeIdx hh dd))

/-- The relative-position bias added to the attention scores (line 124):
`self.pos_embedding[rel[:, :, 0], rel[:, :, 1], rel[:, :, 2]]` with `rel`
the shifted relative index tensor of lines 93-95. -/
def relBias {dim heads headDim w0 w1 w2 : ℕ} (p : WAParams dim heads headDim)
    (i j : Coord (w0, w1, w2)) : ℝ :=
  p.posTable
    (shiftedRel (w0, w1, w2) i.1.pos i.2.1.pos i.2.2.pos i j ⟨0, by omega⟩)
    (shiftedRel (w0, w1, w2) i.1.pos i.2.1.pos i.2.2.pos i j ⟨1, by omega⟩)
    (shiftedRel (w0, w1, w2) i.1.pos i.2.1.pos i.2.2.pos i j ⟨2, by omega⟩)

/-- One attention score (lines 121-124): the scaled query-key dot product
plus the relative-position bias.  The seam masks of lines 128-130 are
commented out in the source and therefore absent. -/
def waDots {dim heads headDim b nh nw nd w0 w1 w2 : ℕ}
    (p : WAParams dim heads headDim)
    (x : Tensor5 b (nh * w0) (nw * w1) (nd * w2) dim)
    (i0 : Fin b) (hh : Fin heads) (wH : Fin nh) (wW : Fin nw) (wD : Fin nd)
    (i j : Coord (w0, w1, w2)) : ℝ :=
  (∑ dd : Fin headDim,
      waQ p x i0 hh wH wW wD i dd * waK p x i0 hh wH wW wD j dd)
      * waScale headDim
    + relBias p i j

/-- The softmax attention weights (line 132): softmax of the scores over
the key position `j`. -/
def waAttn {dim heads headDim b nh nw nd w0 w1 w2 : ℕ}
    (p : WAParams dim heads headDim)
    (x : Tensor5 b (nh * w0) (nw * w1) (nd * w2) dim)
    (i0 : Fin b) (hh : Fin heads) (wH : Fin nh) (wW : Fin nw) (wD : Fin nd)
    (i j : Coord (w0, w1, w2)) : ℝ :=
  Real.exp (waDots p x i0 hh wH wW wD i j) /
    ∑ j' : Coord (w0, w1, w2), Real.exp (waDots p x i0 hh wH wW wD i j')

/-- The body of `WindowAttention.forward` between the optional cyclic
shifts (lines 107-137): weighted sum of the windowed values by the
attention weights (line 134), inverse rearrange (lines 135-136) and the
`to_out` linear layer (line 137). -/
def waCore {dim heads headDim b nh nw nd w0 w1 w2 : ℕ}
    (p : WAParams dim heads headDim)
    (x : Tensor5 b (nh * w0) (nw * w1) (nd * w2) dim) :
    Tensor5 b (nh * w0) (nw * w1) (nd * w2) dim :=
  fun i0 s1 s2 s3 e =>
    (∑ cc : Fin (heads * headDim),
        p.wout e cc *
          ∑ j : Coord (w0, w1, w2),
            waAttn p x i0 (splitIdx cc).1 (splitIdx s1).1 (splitIdx s2).1
                (splitIdx s3).1
                ((splitIdx s1).2, (splitIdx s2).2, (splitIdx s3).2) j
              * waV p x i0 (splitIdx cc).1 (splitIdx s1).1 (splitIdx s2).1
                  (splitIdx s3).1 j (splitIdx cc).2)
      + p.bout e

/-- The per-axis displacement `window_size // 2` of line 82. -/
def waDisp (w0 w1 w2 : ℕ) : ℤ × ℤ × ℤ :=
  (((w0 / 2 : ℕ) : ℤ), ((w1 / 2 : ℕ) : ℤ), ((w2 / 2 : ℕ) : ℤ))

/-- `WindowAttention.forward` (lines 103-142): a shifted module first
applies `self.cyclic_shift` (`CyclicShift` by `−displacement`, line 83),
runs the windowed attention body, and applies `self.cyclic_back_shift`
(`CyclicShift` by `+displacement`, line 84) to the result.  No mask is
added to the scores (lines 128-130 are commented out). -/
def waForward {dim heads headDim b nh nw nd w0 w1 w2 : ℕ}
    (p : WAParams dim heads headDim) (shifted : Bool)
    (x : Tensor5 b (nh * w0) (nw * w1) (nd * w2) dim) :
    Tensor5 b (nh * w0) (nw * w1) (nd * w2) dim :=
  let x1 := if shifted then
      cyclicShift (-(waDisp w0 w1 w2).1, -(waDisp w0 w1 w2).2.1,
        -(waDisp w0 w1 w2).2.2) x
    else x
  let out := waCore p x1
  if shifted then cyclicShift (waDisp w0 w1 w2) out else out

end

/-- The configuration of the worked example used below: hidden width 1,
two layers per stage, a `(1,1,1)` window and the default `(4,2,2,2)`
per-stage downscaling (as per-axis triples). -/
def exampleSwinConfig : SwinConfig :=
  { hiddenDim := 1, layers := (2, 2, 2, 2), channels := 3, numClasses := 5,
    windowSize := (1, 1, 1),
    downscalingFactors := ((4, 4, 4), (2, 2, 2), (2, 2, 2), (2, 2, 2)) }

/-! ## Helper lemmas -/

theorem rollIdx_roll_back {n : ℕ} (s : ℤ) (i : Fin n) :
    rollIdx s (rollIdx (-s) i) = i := by
  have hn : 0 < (n : ℤ) := by exact_mod_cast i.pos
  apply Fin.ext
  show ((((((((i : ℕ) : ℤ) - -s) % (n : ℤ)).toNat : ℕ) : ℤ) - s) % (n : ℤ)).toNat
    = (i : ℕ)
  have h1 : 0 ≤ (((i : ℕ) : ℤ) - -s) % (n : ℤ) := Int.emod_nonneg _ (by omega)
  rw [Int.toNat_of_nonneg h1]
  have h2 : ((((i : ℕ) : ℤ) - -s) % (n : ℤ) - s) % (n : ℤ)
      = ((i : ℕ) : ℤ) % (n : ℤ) := by
    rw [Int.sub_emod, Int.emod_emod_of_dvd _ dvd_rfl, ← Int.sub_emod]
    congr 1
    ring
  rw [h2, Int.emod_eq_of_lt (by omega) (by exact_mod_cast i.isLt)]
  omega

theorem windowAttentionInit_relative (dim heads headDim : ℕ) (shifted : Bool)
    (w0 w1 w2 : ℕ) (h0 : 0 < w0) (h1 : 0 < w1) (h2 : 0 < w2) :
    windowAttentionInit dim heads headDim shifted (w0, w1, w2) true
      = some { dim := dim, heads := heads, headDim := headDim, shifted := shifted,
               windowSize := (w0, w1, w2), relativePosEmbedding := true,
               tableSide := (maxIndice (w0, w1, w2) h0 h1 h2).toNat + 1 } := by
  unfold windowAttentionInit
  rw [if_pos rfl, dif_pos ⟨h0, h1, h2⟩]

theorem stageBlocks_relative (hiddenDim heads headDim : ℕ) (w0 w1 w2 : ℕ)
    (h0 : 0 < w0) (h1 : 0 < w1) (h2 : 0 < w2) (n : ℕ) :
    stageBlocks hiddenDim heads headDim (w0, w1, w2) true n
      = some (List.replicate n
          ({ dim := hiddenDim, heads := heads, headDim := headDim, shifted := false,
             windowSize := (w0, w1, w2), relativePosEmbedding := true,
             tableSide := (maxIndice (w0, w1, w2) h0 h1 h2).toNat + 1 },
           { dim := hiddenDim, heads := heads, headDim := headDim, shifted := true,
             windowSize := (w0, w1, w2), relativePosEmbedding := true,
             tableSide := (maxIndice (w0, w1, w2) h0 h1 h2).toNat + 1 })) := by
  induction n with
  | zero => rfl
  | succ n ih =>
      unfold stageBlocks swinBlockInit
      rw [windowAttentionInit_relative hiddenDim heads headDim false w0 w1 w2 h0 h1 h2,
        windowAttentionInit_relative hiddenDim heads headDim true w0 w1 w2 h0 h1 h2]
      unfold swinBlockInit at ih
      rw [ih]
      rfl

theorem relDist_mem_relEntries (ws : ℕ × ℕ × ℕ) (i j : Coord ws) (a : Fin 3) :
    relDist ws i j a ∈ relEntries ws :=
  Finset.mem_image_of_mem _ (Finset.mem_univ (i, j, a))

theorem shiftedRel_mem_shiftedEntries (ws : ℕ × ℕ × ℕ)
    (h0 : 0 < ws.1) (h1 : 0 < ws.2.1) (h2 : 0 < ws.2.2)
    (i j : Coord ws) (a : Fin 3) :
    shiftedRel ws h0 h1 h2 i j a ∈ shiftedEntries ws h0 h1 h2 :=
  Finset.mem_image_of_mem _ (Finset.mem_univ (i, j, a))

theorem shiftedRel_nonneg (ws : ℕ × ℕ × ℕ)
    (h0 : 0 < ws.1) (h1 : 0 < ws.2.1) (h2 : 0 < ws.2.2)
    (i j : Coord ws) (a : Fin 3) :
    0 ≤ shiftedRel ws h0 h1 h2 i j a :=
  sub_nonneg.mpr (Finset.min'_le _ _ (relDist_mem_relEntries ws i j a))

/-! ## Claim theorems -/

/-- C8: for every 3-tuple of positive window sizes, the raw
relative-distance table of `get_relative_distances` is antisymmetric:
`distances[i][j]` is the componentwise negation of `distances[j][i]`
(before the non-negative shift of line 95 is applied). -/
theorem relDist_antisymm (ws : ℕ × ℕ × ℕ) (i j : Coord ws) (a : Fin 3) :
    relDist ws i j a = - relDist ws j i a := by
  unfold relDist
  split_ifs <;> ring

/-- C6: `CyclicShift` by displacement `d` followed by `CyclicShift` by `−d`
reproduces the input tensor exactly, and a single shift permutes the
entries of the tensor without changing their multiset (a wrap-around
translation that loses no data). -/
theorem cyclicShift_roundtrip (b h w dp c : ℕ) (s : ℤ × ℤ × ℤ)
    (x : Tensor5 b h w dp c) :
    cyclicShift (-s.1, -s.2.1, -s.2.2) (cyclicShift s x) = x ∧
    entries (cyclicShift s x) = entries x := by
  constructor
  · funext i0 i1 i2 i3 i4
    show x i0 (rollIdx s.1 (rollIdx (-s.1) i1)) (rollIdx s.2.1 (rollIdx (-s.2.1) i2))
        (rollIdx s.2.2 (rollIdx (-s.2.2) i3)) i4 = x i0 i1 i2 i3 i4
    rw [rollIdx_roll_back, rollIdx_roll_back, rollIdx_roll_back]
  · let e1 : Fin h ≃ Fin h :=
      { toFun := rollIdx s.1, invFun := rollIdx (-s.1),
        left_inv := fun i => by simpa using rollIdx_roll_back (-s.1) i,
        right_inv := fun i => rollIdx_roll_back s.1 i }
    let e2 : Fin w ≃ Fin w :=
      { toFun := rollIdx s.2.1, invFun := rollIdx (-s.2.1),
        left_inv := fun i => by simpa using rollIdx_roll_back (-s.2.1) i,
        right_inv := fun i => rollIdx_roll_back s.2.1 i }
    let e3 : Fin dp ≃ Fin dp :=
      { toFun := rollIdx s.2.2, invFun := rollIdx (-s.2.2),
        left_inv := fun i => by simpa using rollIdx_roll_back (-s.2.2) i,
        right_inv := fun i => rollIdx_roll_back s.2.2 i }
    let σ : (Fin b × Fin h × Fin w × Fin dp × Fin c)
        ≃ (Fin b × Fin h × Fin w × Fin dp × Fin c) :=
      (Equiv.refl (Fin b)).prodCongr
        (e1.prodCongr (e2.prodCongr (e3.prodCongr (Equiv.refl (Fin c)))))
    have hperm : Finset.univ.val.map ⇑σ
        = (Finset.univ : Finset (Fin b × Fin h × Fin w × Fin dp × Fin c)).val := by
      conv_rhs => rw [← Finset.map_univ_equiv σ]
      simp [Finset.map_val]
    have hfun : (fun p : Fin b × Fin h × Fin w × Fin dp × Fin c =>
          x p.1 (rollIdx s.1 p.2.1) (rollIdx s.2.1 p.2.2.1)
            (rollIdx s.2.2 p.2.2.2.1) p.2.2.2.2)
        = (fun p : Fin b × Fin h × Fin w × Fin dp × Fin c =>
            x p.1 p.2.1 p.2.2.1 p.2.2.2.1 p.2.2.2.2) ∘ ⇑σ := rfl
    show Finset.univ.val.map (fun p : Fin b × Fin h × Fin w × Fin dp × Fin c =>
        x p.1 (rollIdx s.1 p.2.1) (rollIdx s.2.1 p.2.2.1)
          (rollIdx s.2.2 p.2.2.2.1) p.2.2.2.2)
      = Finset.univ.val.map (fun p : Fin b × Fin h × Fin w × Fin dp × Fin c =>
          x p.1 p.2.1 p.2.2.1 p.2.2.2.1 p.2.2.2.2)
    rw [hfun, ← Multiset.map_map, hperm]

/-- C3 counterexample: with downscaling factors `(2,1,1)` and a batch-1
input of spatial size `(3,1,1)`, the height 3 is not divisible by the
factor 2, yet `PatchMerging.forward` does not raise: `Tensor.unfold`
silently drops the remainder and the call returns a `(1,1,1,1,1)` tensor. -/
theorem patchMerging_no_raise_on_indivisible :
    patchMergingShape 1 1 (2, 1, 1) [1, 1, 3, 1, 1] = some [1, 1, 1, 1, 1] ∧
    patchMergingShape 1 1 (2, 1, 1) [1, 1, 3, 1, 1] ≠ none := by
  constructor <;> decide

/-- C3 (amended): for a batch-1 input of shape `(1,C,H,W,D)` with `C` the
configured input channel count and positive factors `(fh,fw,fd)`: when every
spatial dim is at least its factor the call succeeds and returns a tensor of
shape `(1, H/fh, W/fw, D/fd, out_channels)` (floor division — exactly
`H/fh` etc. when the dims are exactly divisible, silent truncation
otherwise); the call raises only when some spatial dim is smaller than its
factor (`Tensor.unfold` size check). -/
theorem patchMerging_shape_spec (inC outC f0 f1 f2 c h w d : ℕ)
    (hf0 : 0 < f0) (hf1 : 0 < f1) (hf2 : 0 < f2) (hc : c = inC) :
    (f0 ≤ h → f1 ≤ w → f2 ≤ d →
      patchMergingShape inC outC (f0, f1, f2) [1, c, h, w, d]
        = some [1, h / f0, w / f1, d / f2, outC]) ∧
    (h < f0 ∨ w < f1 ∨ d < f2 →
      patchMergingShape inC outC (f0, f1, f2) [1, c, h, w, d] = none) := by
  subst hc
  constructor
  · intro h1 h2 h3
    simp only [patchMergingShape, if_true]
    rw [if_pos (by omega)]
  · intro hlt
    simp only [patchMergingShape, if_true]
    rw [if_neg (by omega)]

/-- C3 witness: a divisible instance (factors `(2,2,2)`, dims `(4,6,2)`)
returning `(1,2,3,1,3)`, and an instance with a dim smaller than its factor
that raises. -/
theorem patchMerging_shape_spec_witness :
    patchMergingShape 2 3 (2, 2, 2) [1, 2, 4, 6, 2] = some [1, 2, 3, 1, 3] ∧
    patchMergingShape 2 3 (2, 2, 2) [1, 2, 1, 6, 2] = none :=
  ⟨(patchMerging_shape_spec 2 3 2 2 2 2 4 6 2 (by decide) (by decide) (by decide)
        rfl).1 (by decide) (by decide) (by decide),
   (patchMerging_shape_spec 2 3 2 2 2 2 1 6 2 (by decide) (by decide) (by decide)
        rfl).2 (by decide)⟩

/-- C7: for an input of shape `(B,H,W,D,C)` with `C` the construction
width and every spatial dim an exact multiple of the (positive)
corresponding window size, `WindowAttention.forward` returns a tensor of
the same shape `(B,H,W,D,C)`. -/
theorem windowAttention_shape_preserved (dim w0 w1 w2 b h w d c : ℕ)
    (hc : c = dim) (h0 : 0 < w0) (h1 : 0 < w1) (h2 : 0 < w2)
    (hd0 : w0 ∣ h) (hd1 : w1 ∣ w) (hd2 : w2 ∣ d) :
    windowAttentionShape dim (w0, w1, w2) [b, h, w, d, c]
      = some [b, h, w, d, c] := by
  subst hc
  simp only [windowAttentionShape, if_true]
  rw [if_pos ⟨h0, h1, h2, hd0, hd1, hd2⟩]

/-- C7 witness: window `(2,4,4)` on an input of shape `(2,4,8,16,8)`. -/
theorem windowAttention_shape_preserved_witness :
    windowAttentionShape 8 (2, 4, 4) [2, 4, 8, 16, 8]
      = some [2, 4, 8, 16, 8] :=
  windowAttention_shape_preserved 8 2 4 4 2 4 8 16 8 rfl (by decide) (by decide)
    (by decide) (by decide) (by decide) (by decide)

/-- C4 counterexample: constructing `WindowAttention` in absolute
positional-bias mode with the 3-tuple window `(4,8,8)` fails at
construction time (line 99 computes `window_size ** 2` on the tuple, a
Python `TypeError`), so no error is left to be raised at forward time. -/
theorem windowAttentionInit_absolute_concrete :
    windowAttentionInit 32 4 8 false (4, 8, 8) false = none := rfl

/-- C4 (amended): for every 3-tuple window size, constructing
`WindowAttention` with `relative_pos_embedding=False` raises at
construction time — `pos_embedding = nn.Parameter(torch.randn(window_size ** 2, …))`
applies `**` to the tuple, a `TypeError` — so the faulty 2D-area sizing of
the absolute bias table can never produce a forward-call-time error. -/
theorem windowAttentionInit_absolute_fails (dim heads headDim : ℕ)
    (shifted : Bool) (ws : ℕ × ℕ × ℕ) :
    windowAttentionInit dim heads headDim shifted ws false = none := by
  simp [windowAttentionInit]

/-- C5: for every odd `layers` value, `StageModule` construction fails
immediately on the leading `assert layers % 2 == 0`, before any block (and
hence any parameter tensor) is created; for every even value (in the
constructible relative-position mode with a positive 3-tuple window) it
succeeds and builds `layers/2` pairs of (non-shifted, shifted)
`SwinBlock`s. -/
theorem stageModule_layer_parity (inC hiddenDim layers f0 f1 f2 heads headDim
    w0 w1 w2 : ℕ) (h0 : 0 < w0) (h1 : 0 < w1) (h2 : 0 < w2) :
    (layers % 2 ≠ 0 →
      stageModuleInit inC hiddenDim layers (f0, f1, f2) heads headDim
        (w0, w1, w2) true = none) ∧
    (layers % 2 = 0 →
      ∃ cfg, stageModuleInit inC hiddenDim layers (f0, f1, f2) heads headDim
          (w0, w1, w2) true = some cfg
        ∧ cfg.blocks.length = layers / 2
        ∧ ∀ pr ∈ cfg.blocks, pr.1.shifted = false ∧ pr.2.shifted = true) := by
  constructor
  · intro hodd
    simp [stageModuleInit, hodd]
  · intro heven
    let blkF : WAConfig :=
      { dim := hiddenDim, heads := heads, headDim := headDim, shifted := false,
        windowSize := (w0, w1, w2), relativePosEmbedding := true,
        tableSide := (maxIndice (w0, w1, w2) h0 h1 h2).toNat + 1 }
    let blkT : WAConfig :=
      { dim := hiddenDim, heads := heads, headDim := headDim, shifted := true,
        windowSize := (w0, w1, w2), relativePosEmbedding := true,
        tableSide := (maxIndice (w0, w1, w2) h0 h1 h2).toNat + 1 }
    refine ⟨{ blocks := List.replicate (layers / 2) (blkF, blkT) }, ?_, ?_, ?_⟩
    · simp only [stageModuleInit, if_pos heven]
      rw [stageBlocks_relative hiddenDim heads headDim w0 w1 w2 h0 h1 h2]
      rfl
    · simp
    · intro pr hpr
      have := List.eq_of_mem_replicate hpr
      subst this
      exact ⟨rfl, rfl⟩

/-- C5 witness: `layers = 3` fails at construction; `layers = 4` constructs
two (non-shifted, shifted) block pairs. -/
theorem stageModule_layer_parity_witness :
    (stageModuleInit 3 4 3 (2, 2, 2) 2 2 (2, 2, 2) true = none) ∧
    (∃ cfg, stageModuleInit 3 4 4 (2, 2, 2) 2 2 (2, 2, 2) true = some cfg
      ∧ cfg.blocks.length = 4 / 2
      ∧ ∀ pr ∈ cfg.blocks, pr.1.shifted = false ∧ pr.2.shifted = true) :=
  ⟨(stageModule_layer_parity 3 4 3 2 2 2 2 2 2 2 2 (by decide) (by decide)
      (by decide)).1 (by decide),
   (stageModule_layer_parity 3 4 4 2 2 2 2 2 2 2 2 (by decide) (by decide)
      (by decide)).2 (by decide)⟩

/-- C9: for positive window sizes, the relative mode builds an index tensor
over `window_volume × window_volume × 3` window-position pairs whose
entries, after the offset by the global minimum displacement (line 95), are
all non-negative, and a bias table of side `max_indice + 1` (line 97),
`max_indice` being the maximum shifted entry. -/
theorem relativeIndices_nonneg_and_table (w0 w1 w2 dim heads headDim : ℕ)
    (shifted : Bool) (h0 : 0 < w0) (h1 : 0 < w1) (h2 : 0 < w2) :
    Fintype.card (Coord (w0, w1, w2)) = w0 * w1 * w2 ∧
    (∀ (i j : Coord (w0, w1, w2)) (a : Fin 3),
        0 ≤ shiftedRel (w0, w1, w2) h0 h1 h2 i j a) ∧
    windowAttentionInit dim heads headDim shifted (w0, w1, w2) true
      = some { dim := dim, heads := heads, headDim := headDim, shifted := shifted,
               windowSize := (w0, w1, w2), relativePosEmbedding := true,
               tableSide := (maxIndice (w0, w1, w2) h0 h1 h2).toNat + 1 } := by
  refine ⟨?_, ?_, ?_⟩
  · simp [Coord, mul_assoc]
  · exact fun i j a => shiftedRel_nonneg (w0, w1, w2) h0 h1 h2 i j a
  · exact windowAttentionInit_relative dim heads headDim shifted w0 w1 w2 h0 h1 h2

/-- C9 witness: the `(2,2,2)` window. -/
theorem relativeIndices_nonneg_and_table_witness :
    Fintype.card (Coord (2, 2, 2)) = 2 * 2 * 2 ∧
    0 ≤ shiftedRel (2, 2, 2) (by decide) (by decide) (by decide)
        (⟨0, by decide⟩, ⟨0, by decide⟩, ⟨0, by decide⟩)
        (⟨1, by decide⟩, ⟨1, by decide⟩, ⟨1, by decide⟩) ⟨0, by decide⟩ ∧
    windowAttentionInit 8 2 4 false (2, 2, 2) true
      = some { dim := 8, heads := 2, headDim := 4, shifted := false,
               windowSize := (2, 2, 2), relativePosEmbedding := true,
               tableSide := (maxIndice (2, 2, 2) (by decide) (by decide)
                   (by decide)).toNat + 1 } :=
  ⟨(relativeIndices_nonneg_and_table 2 2 2 8 2 4 false (by decide) (by decide)
      (by decide)).1,
   (relativeIndices_nonneg_and_table 2 2 2 8 2 4 false (by decide) (by decide)
      (by decide)).2.1 _ _ _,
   (relativeIndices_nonneg_and_table 2 2 2 8 2 4 false (by decide) (by decide)
      (by decide)).2.2⟩

/-- C10: every entry of the shifted `relative_indices` tensor lies in
`[0, max_indice]`, i.e. strictly below the side length of the
`pos_embedding` table recorded at construction, so the three-coordinate
lookup of line 124 is always within bounds. -/
theorem relativeIndices_in_bounds (w0 w1 w2 dim heads headDim : ℕ)
    (shifted : Bool) (h0 : 0 < w0) (h1 : 0 < w1) (h2 : 0 < w2)
    (cfg : WAConfig)
    (hcfg : windowAttentionInit dim heads headDim shifted (w0, w1, w2) true
      = some cfg)
    (i j : Coord (w0, w1, w2)) (a : Fin 3) :
    0 ≤ shiftedRel (w0, w1, w2) h0 h1 h2 i j a ∧
    shiftedRel (w0, w1, w2) h0 h1 h2 i j a < (cfg.tableSide : ℤ) := by
  have hnn := shiftedRel_nonneg (w0, w1, w2) h0 h1 h2 i j a
  refine ⟨hnn, ?_⟩
  have hle : shiftedRel (w0, w1, w2) h0 h1 h2 i j a
      ≤ maxIndice (w0, w1, w2) h0 h1 h2 :=
    Finset.le_max' _ _ (shiftedRel_mem_shiftedEntries (w0, w1, w2) h0 h1 h2 i j a)
  have hmax : 0 ≤ maxIndice (w0, w1, w2) h0 h1 h2 := le_trans hnn hle
  have hside : cfg.tableSide = (maxIndice (w0, w1, w2) h0 h1 h2).toNat + 1 := by
    rw [windowAttentionInit_relative dim heads headDim shifted w0 w1 w2 h0 h1 h2]
      at hcfg
    cases hcfg
    rfl
  rw [hside]
  push_cast
  rw [Int.toNat_of_nonneg hmax]
  omega

/-- C10 witness: the `(2,2,2)` window, whose bias table has side 3. -/
theorem relativeIndices_in_bounds_witness :
    0 ≤ shiftedRel (2, 2, 2) (by decide) (by decide) (by decide)
        (⟨0, by decide⟩, ⟨1, by decide⟩, ⟨0, by decide⟩)
        (⟨1, by decide⟩, ⟨0, by decide⟩, ⟨1, by decide⟩) ⟨2, by decide⟩ ∧
    shiftedRel (2, 2, 2) (by decide) (by decide) (by decide)
        (⟨0, by decide⟩, ⟨1, by decide⟩, ⟨0, by decide⟩)
        (⟨1, by decide⟩, ⟨0, by decide⟩, ⟨1, by decide⟩) ⟨2, by decide⟩
      < (({ dim := 8, heads := 2, headDim := 4, shifted := true,
            windowSize := (2, 2, 2), relativePosEmbedding := true,
            tableSide := (maxIndice (2, 2, 2) (by decide) (by decide)
                (by decide)).toNat + 1 } : WAConfig).tableSide : ℤ) :=
  relativeIndices_in_bounds 2 2 2 8 2 4 true (by decide) (by decide) (by decide)
    _ (windowAttentionInit_relative 8 2 4 true 2 2 2 (by decide) (by decide)
        (by decide)) _ _ _

/-- C2: for every input whose spatial dims are (exact) multiples of the
window size, a shifted `WindowAttention` forward equals
`cyclic_back_shift` applied to the unshifted attention computation applied
to `cyclic_shift(x)` with displacement `−(window_size // 2)` per axis; and
since the seam masks of lines 128-130 are commented out, every attention
weight in the shifted computation is strictly positive — attention freely
connects positions across the wrap-around seams. -/
theorem waForward_shift_equiv (dim heads headDim b nh nw nd w0 w1 w2 : ℕ)
    (p : WAParams dim heads headDim)
    (x : Tensor5 b (nh * w0) (nw * w1) (nd * w2) dim) :
    waForward p true x
      = cyclicShift (waDisp w0 w1 w2)
          (waForward p false
            (cyclicShift (-(waDisp w0 w1 w2).1, -(waDisp w0 w1 w2).2.1,
              -(waDisp w0 w1 w2).2.2) x)) ∧
    (∀ (i0 : Fin b) (hh : Fin heads) (wH : Fin nh) (wW : Fin nw) (wD : Fin nd)
        (i j : Coord (w0, w1, w2)),
      0 < waAttn p (cyclicShift (-(waDisp w0 w1 w2).1, -(waDisp w0 w1 w2).2.1,
          -(waDisp w0 w1 w2).2.2) x) i0 hh wH wW wD i j) := by
  constructor
  · rfl
  · intro i0 hh wH wW wD i j
    haveI : Nonempty (Coord (w0, w1, w2)) := ⟨j⟩
    unfold waAttn
    exact div_pos (Real.exp_pos _)
      (Finset.sum_pos (fun _ _ => Real.exp_pos _) Finset.univ_nonempty)

/-- C1 counterexample: a validly-shaped input (spatial dims divisible by
every stage's downscaling factors and by the window size at every stage)
for which `SwinTransformer.forward` returns a 3-dimensional
`(1, hidden·8, num_classes)` tensor, not the claimed 2-dimensional
`(batch, num_classes)` logits. -/
theorem swinTransformer_output_not_two_dim :
    swinTransformerShape exampleSwinConfig [1, 3, 32, 32, 256]
      = some [1, 8, 5] ∧
    ([1, 8, 5] : Shape).length ≠ 2 := by
  constructor <;> decide

/-- C1 (amended): the pre-head pooling of `SwinTransformer.forward`
averages over axes `[2, 3]` only, leaving the depth axis unreduced, so
after the four stages produce `(1, hidden·8, h₄, w₄, d₄)` the head is
applied to a `(1, hidden·8, d₄)` tensor: the call raises unless
`d₄ = hidden·8` (the `LayerNorm(hidden·8)` size check), and when it
succeeds it returns a 3-dimensional `(1, hidden·8, num_classes)` tensor,
never a 2-dimensional `(batch, num_classes)` one. -/
theorem swinTransformer_head_shape (cfg : SwinConfig) (s : Shape)
    (h4 w4 d4 : ℕ)
    (hst : swinStagesShape cfg s = some [1, cfg.hiddenDim * 8, h4, w4, d4]) :
    swinTransformerShape cfg s
      = if d4 = cfg.hiddenDim * 8
        then some [1, cfg.hiddenDim * 8, cfg.numClasses] else none := by
  unfold swinTransformerShape
  rw [hst]
  unfold layerNormShape linearShape
  by_cases hd : d4 = cfg.hiddenDim * 8
  · subst hd
    simp
  · simp [hd]

/-- C1 witness: the worked example, whose post-stage depth happens to equal
`hidden·8 = 8`, so the head succeeds and returns the 3-dimensional shape. -/
theorem swinTransformer_head_shape_witness :
    swinTransformerShape exampleSwinConfig [1, 3, 32, 32, 256]
      = if 8 = exampleSwinConfig.hiddenDim * 8
        then some [1, exampleSwinConfig.hiddenDim * 8,
          exampleSwinConfig.numClasses]
        else none :=
  swinTransformer_head_shape exampleSwinConfig [1, 3, 32, 32, 256] 1 1 8
    (by decide)

end MedicalSeg
